import Mathlib

/-
Verification of the asset clean-up script `src/contrib/clean_up_everything.py`
(Metashape-scripts repository).

The script is a Qt dialog that batch-removes generated assets from Metashape
projects.  We shallowly embed the logic that is independent of the UI toolkit:

* the checkbox state and `get_selected_assets` (lines 29-70 of the source);
* the removal dispatcher `handle_assets` (lines 85-116), with the host
  (Metashape) object model abstracted as an environment that maps each
  host-API call to either success or a raised exception;
* the three batch flows `remove_from_project` (lines 118-132),
  `select_project` (lines 134-162) and the directory-scan pipeline
  `remove_from_subfolders` / `project_selection_table` /
  `process_selected_projects` (lines 164-245), modelled as functions from the
  user's dialog answers and the host environment to the list of UI/host
  actions performed (in order) and the log that `show_log` would display.

Host-side exceptions are modelled by `Except String`: an `Except.error e`
result of an environment call stands for the host raising an exception with
message `e` at that call.  The Python `try`/`except` blocks become explicit
propagation of the first error, exactly following the source's block
boundaries.
-/

namespace CleanUp

/-- The nine checkbox labels, in the insertion order of the `self.checkboxes`
dict (source lines 29-39); `get_selected_assets` iterates in this order. -/
def checkboxLabels : List String :=
  ["Key Points", "Tie Points", "Depth Maps", "Point Clouds", "Models",
   "DEMs", "Orthophotos", "Orthomosaics", "Shapes"]

/-- The default checkbox state set in `__init__` (source lines 42-45):
exactly Orthophotos, Orthomosaics, DEMs and Point Clouds start checked. -/
def defaultChecked (asset : String) : Bool :=
  asset = "Orthophotos" || asset = "Orthomosaics" || asset = "DEMs" ||
    asset = "Point Clouds"

/-- `get_selected_assets` (source lines 69-70): the labels whose checkbox is
currently checked, in dict insertion order. -/
def get_selected_assets (checked : String → Bool) : List String :=
  checkboxLabels.filter checked

/-- The asset-type labels the dispatcher `handle_assets` recognises
(source lines 87-108).  Note this includes "Tiled Models", which has a
dispatch branch but no checkbox. -/
def validAssetTypes : List String :=
  ["Key Points", "Tie Points", "Depth Maps", "Point Clouds", "Models",
   "Tiled Models", "DEMs", "Orthophotos", "Orthomosaics", "Shapes"]

/-- The part of a Metashape chunk's state that the script itself reads:
`chunk.label` (log messages), the truthiness of `chunk.tie_points` (the
"Key Points" guard, line 88) and the contents of `chunk.orthomosaics`
(the "Orthophotos" loop, line 103).  Everything else about the chunk is
only ever passed to a single host call and is left inside the opaque host
environment.  The script mutates `tie_points`/`shapes`/collections only at
labels that come *after* every label reading them in checkbox order
("Key Points" < "Tie Points", "Orthophotos" < "Orthomosaics"), so a chunk
value that is read-only during one project's removal pass is observationally
faithful for every batch produced by `get_selected_assets`. -/
structure Chunk where
  label : String
  tie_points : Bool
  orthomosaics : List String
deriving DecidableEq

/-- One host-API call made by the dispatcher (source lines 88-108). -/
inductive HostCall where
  | removeKeypoints
  | setTiePointsNone
  | removeDepthMaps
  | removePointClouds
  | removeModels
  | removeTiledModels
  | removeElevations
  | removeOrthophotos (ortho : String)
  | removeOrthomosaics
  | setShapesNone
deriving DecidableEq

/-- Host environment: the outcome (normal return or raised exception) of
each host-API call during one removal pass. -/
abbrev HostEnv : Type := HostCall → Except String Unit

/-- Make one host call inside the `try` block: record the call, and report
the exception message if the host raised. -/
def tryCall (env : HostEnv) (c : HostCall) : Option String × List HostCall :=
  match env c with
  | Except.ok _ => (none, [c])
  | Except.error e => (some e, [c])

/-- The "Orthophotos" branch (source lines 103-104):
`for ortho in chunk.orthomosaics: ortho.removeOrthophotos()`.
A raised exception aborts the loop at the failing call. -/
def removeOrthophotosAll (env : HostEnv) : List String → Option String × List HostCall
  | [] => (none, [])
  | o :: rest =>
    match env (HostCall.removeOrthophotos o) with
    | Except.ok _ =>
      let r := removeOrthophotosAll env rest
      (r.1, HostCall.removeOrthophotos o :: r.2)
    | Except.error e =>
      (some e, [HostCall.removeOrthophotos o])

/-- Leaving the `try` block: no exception falls through to `return True`
(line 113); an exception reaches the `except` handler, which returns `False`
(lines 114-116). -/
def finishTry : Option String × List HostCall → Bool × List HostCall
  | (none, calls) => (true, calls)
  | (some _, calls) => (false, calls)

/-- `handle_assets` (source lines 85-116): dispatch one asset-type label to
its host-API call(s).  Returns the boolean result together with the list of
host calls made, in order.  The final `else` is the unknown-label branch
(lines 109-111): no call, `False`. -/
def handle_assets (env : HostEnv) (chunk : Chunk) (asset_type : String) :
    Bool × List HostCall :=
  if asset_type = "Key Points" then
    finishTry (if chunk.tie_points then tryCall env HostCall.removeKeypoints
               else (none, []))
  else if asset_type = "Tie Points" then
    finishTry (tryCall env HostCall.setTiePointsNone)
  else if asset_type = "Depth Maps" then
    finishTry (tryCall env HostCall.removeDepthMaps)
  else if asset_type = "Point Clouds" then
    finishTry (tryCall env HostCall.removePointClouds)
  else if asset_type = "Models" then
    finishTry (tryCall env HostCall.removeModels)
  else if asset_type = "Tiled Models" then
    finishTry (tryCall env HostCall.removeTiledModels)
  else if asset_type = "DEMs" then
    finishTry (tryCall env HostCall.removeElevations)
  else if asset_type = "Orthophotos" then
    finishTry (removeOrthophotosAll env chunk.orthomosaics)
  else if asset_type = "Orthomosaics" then
    finishTry (tryCall env HostCall.removeOrthomosaics)
  else if asset_type = "Shapes" then
    finishTry (tryCall env HostCall.setShapesNone)
  else
    (false, [])

/-- A log entry: message text and display colour, as appended by the batch
loops and rendered by `show_log`. -/
abbrev LogEntry : Type := String × String

/-- The success log line (source lines 129, 156, 239). -/
def successEntry (asset target : String) : LogEntry :=
  (s!"Successfully removed {asset} from {target}", "black")

/-- The failure log line (source lines 131, 158, 241). -/
def failureEntry (asset target : String) : LogEntry :=
  (s!"Failed to remove {asset} from {target}", "red")

/-- The project-level I/O failure log line (source lines 161, 244). -/
def openFailEntry (target e : String) : LogEntry :=
  (s!"Failed to open or process {target}: {e}", "red")

/-- The per-asset loop shared by all three batch flows (source lines
126-131, 153-158, 236-241): one log entry per selected asset, success or
failure according to `handle_assets`. -/
def assetRemovalLog (env : HostEnv) (chunk : Chunk) (target : String)
    (assets : List String) : List LogEntry :=
  assets.map fun asset =>
    if (handle_assets env chunk asset).1 then successEntry asset target
    else failureEntry asset target

/-- The externally visible actions a batch flow performs, in order:
showing the confirmation dialog, opening a project document, one
`handle_assets` dispatch for a (target, asset) pair, saving a project
document, and showing the log dialog. -/
inductive Action where
  | confirm
  | openDoc (path : String)
  | dispatch (target : String) (asset : String)
  | save (path : String)
  | showLog
deriving DecidableEq

/-- Is this action a dispatcher invocation? -/
def Action.isDispatch : Action → Bool
  | Action.dispatch _ _ => true
  | _ => false

/-- Is this action a project save? -/
def Action.isSave : Action → Bool
  | Action.save _ => true
  | _ => false

/-- Did the host operation return normally? -/
def isOk {α : Type} : Except String α → Bool
  | Except.ok _ => true
  | Except.error _ => false

/-- Batch environment: the host side of the file-based flows.
`openDoc` models `Metashape.Document()` / `doc.open(file_path)` /
`doc.chunk` (lines 150-152, 233-235): either the resulting chunk, or the
exception raised while opening.  `saveDoc` models `doc.save()` (lines 159,
242).  `host` gives the per-project outcome of each dispatcher host call. -/
structure BatchEnv where
  openDoc : String → Except String Chunk
  saveDoc : String → Except String Unit
  host : String → HostEnv

/-- The body of one iteration of the per-project batch loop, i.e. the
`try`/`except` block of `select_project` (lines 149-161) and of
`process_selected_projects` (lines 232-244): open the document, run
`handle_assets` for each selected asset appending a log entry each, save;
an exception raised by open is caught by the `except` arm (line 160/243),
which appends one failure entry and skips the asset loop; an exception
raised by save is caught the same way after the asset entries are already
in the log.  Returns the actions performed and the log entries appended. -/
def processOneProject (env : BatchEnv) (assets : List String) (fp : String) :
    List Action × List LogEntry :=
  match env.openDoc fp with
  | Except.error e =>
    ([Action.openDoc fp], [openFailEntry fp e])
  | Except.ok chunk =>
    let acts := Action.openDoc fp ::
      (assets.map (fun a => Action.dispatch fp a) ++ [Action.save fp])
    let entries := assetRemovalLog (env.host fp) chunk fp assets
    match env.saveDoc fp with
    | Except.ok _ => (acts, entries)
    | Except.error e => (acts, entries ++ [openFailEntry fp e])

/-- The outer batch loop over the selected project files (lines 148-161,
231-244), accumulating actions and log entries in order. -/
def processProjects (env : BatchEnv) (assets : List String) :
    List String → List Action × List LogEntry
  | [] => ([], [])
  | fp :: rest =>
    let r := processOneProject env assets fp
    let rr := processProjects env assets rest
    (r.1 ++ rr.1, r.2 ++ rr.2)

/-- `remove_from_project` (source lines 118-132), the current-project mode:
the confirmation dialog is always shown (line 125, with no emptiness guard);
on Yes, each selected asset is dispatched against the already-open chunk and
the log is shown.  There is no `doc.save()` call in this flow.
`confirmAnswer` is the user's answer to the confirmation dialog. -/
def remove_from_project (env : HostEnv) (chunk : Chunk)
    (checked : String → Bool) (confirmAnswer : Bool) :
    List Action × List LogEntry :=
  let selected_assets := get_selected_assets checked
  if confirmAnswer then
    (Action.confirm ::
       (selected_assets.map (fun a => Action.dispatch chunk.label a) ++
        [Action.showLog]),
     assetRemovalLog env chunk chunk.label selected_assets)
  else
    ([Action.confirm], [])

/-- `select_project` (source lines 134-162), the explicit-selection mode,
after the file dialog was accepted with `file_paths` chosen: if no asset is
selected nothing happens (line 146 guard); otherwise the confirmation is
shown and, on Yes, the batch loop runs and the log is shown. -/
def select_project (env : BatchEnv) (checked : String → Bool)
    (file_paths : List String) (confirmAnswer : Bool) :
    List Action × List LogEntry :=
  let selected_assets := get_selected_assets checked
  if selected_assets.isEmpty then ([], [])
  else if confirmAnswer then
    let r := processProjects env selected_assets file_paths
    (Action.confirm :: (r.1 ++ [Action.showLog]), r.2)
  else
    ([Action.confirm], [])

/-- The selection-table read-out of `process_selected_projects` (line 223):
`[file_paths[i] for i, checkbox in enumerate(checkboxes) if
checkbox.isChecked()]`.  The table is built with one checkbox per file
path (lines 201-207), so the two lists have equal length. -/
def selectByCheckbox (file_paths : List String) (boxes : List Bool) :
    List String :=
  ((file_paths.zip boxes).filter (fun pb => pb.2)).map (fun pb => pb.1)

/-- `process_selected_projects` (source lines 222-245): prune the file list
by the table checkboxes, then (if any file and any asset is selected)
confirm and run the same batch loop as `select_project`. -/
def process_selected_projects (env : BatchEnv) (checked : String → Bool)
    (file_paths : List String) (boxes : List Bool) (confirmAnswer : Bool) :
    List Action × List LogEntry :=
  let selected_files := selectByCheckbox file_paths boxes
  if selected_files.isEmpty then ([], [])
  else
    let selected_assets := get_selected_assets checked
    if selected_assets.isEmpty then ([], [])
    else if confirmAnswer then
      let r := processProjects env selected_assets selected_files
      (Action.confirm :: (r.1 ++ [Action.showLog]), r.2)
    else
      ([Action.confirm], [])

/-- ASCII lowercasing of a string, character by character: the model of
Python `str.lower()` as applied to file names (line 175). -/
def pyLower (s : String) : String := ⟨s.data.map Char.toLower⟩

/-- Python `str.endswith(suffix)` on the underlying character sequence. -/
def pyEndsWith (s suffix : String) : Bool := suffix.data.isSuffixOf s.data

/-- The file filter of the directory scan (line 175):
`file.lower().endswith(('.psz', '.psx'))`. -/
def isProjectFile (file : String) : Bool :=
  pyEndsWith (pyLower file) ".psz" || pyEndsWith (pyLower file) ".psx"

/-- `os.path.join(root, file)` with a POSIX separator. -/
def joinPath (root file : String) : String := root ++ "/" ++ file

/-- A directory tree: the directory's path, its plain files (names only)
and its subdirectories. -/
inductive FSTree where
  | node (root : String) (files : List String) (subdirs : List FSTree)

mutual

/-- The `(root, file)` pairs `os.walk` enumerates under a directory,
top-down (the order of the `for root, dirs, files in os.walk(...)` loop,
line 173): the directory's own files first, then each subdirectory
recursively. -/
def walkEntries : FSTree → List (String × String)
  | FSTree.node root files subdirs =>
    files.map (fun f => (root, f)) ++ walkEntriesList subdirs

/-- `walkEntries` over a list of sibling subdirectories, in order. -/
def walkEntriesList : List FSTree → List (String × String)
  | [] => []
  | t :: ts => walkEntries t ++ walkEntriesList ts

end

/-- The discovery loop of `remove_from_subfolders` (source lines 172-176):
for each walk entry, keep the joined path when the file name matches the
project-file suffixes. -/
def collectProjectFiles (t : FSTree) : List String :=
  ((walkEntries t).filter (fun e => isProjectFile e.2)).map
    (fun e => joinPath e.1 e.2)

/-- `file` is a plain file of a directory named `root` somewhere inside the
tree: the ground truth `os.walk` is compared against. -/
inductive InTree : FSTree → String → String → Prop
  | here (root : String) (files : List String) (subdirs : List FSTree)
      (f : String) : f ∈ files → InTree (FSTree.node root files subdirs) root f
  | there (r : String) (fs : List String) (subdirs : List FSTree) (t : FSTree)
      (root f : String) : t ∈ subdirs → InTree t root f →
      InTree (FSTree.node r fs subdirs) root f

/-- `remove_from_subfolders` (source lines 164-180) composed with the
selection table and its OK button: scan the chosen directory, and if any
project file was found, run `process_selected_projects` on the discovered
list with the table's checkbox states (`boxes`; the table initialises every
checkbox to checked, line 205). -/
def remove_from_subfolders (env : BatchEnv) (checked : String → Bool)
    (tree : FSTree) (boxes : List Bool) (confirmAnswer : Bool) :
    List Action × List LogEntry :=
  let file_paths := collectProjectFiles tree
  if file_paths.isEmpty then ([], [])
  else process_selected_projects env checked file_paths boxes confirmAnswer

/-! Concrete sample values used to instantiate the theorems below. -/

/-- A host environment in which every call returns normally. -/
def envAllOk : HostEnv := fun _ => Except.ok ()

/-- A host environment in which every call raises. -/
def envAllFail : HostEnv := fun _ => Except.error "boom"

/-- A chunk with a tie-point set and two orthomosaics. -/
def chunkA : Chunk := { label := "Chunk 1", tie_points := true, orthomosaics := ["o1", "o2"] }

/-- A chunk with no tie-point set. -/
def chunkNoTP : Chunk := { label := "Chunk 1", tie_points := false, orthomosaics := [] }

/-- A batch environment in which every open, save and host call succeeds. -/
def batchAllOk : BatchEnv :=
  { openDoc := fun _ => Except.ok chunkA,
    saveDoc := fun _ => Except.ok (),
    host := fun _ => envAllOk }

/-- A batch environment in which every open succeeds but every save raises. -/
def batchSaveFails : BatchEnv :=
  { openDoc := fun _ => Except.ok chunkA,
    saveDoc := fun _ => Except.error "disk full",
    host := fun _ => envAllOk }

/-- A batch environment in which every open and save succeeds but every
dispatcher host call raises. -/
def batchHostFails : BatchEnv :=
  { openDoc := fun _ => Except.ok chunkA,
    saveDoc := fun _ => Except.ok (),
    host := fun _ => envAllFail }

/-- A checkbox state with nothing checked. -/
def noneChecked : String → Bool := fun _ => false

/-- A small directory tree with matching and non-matching files. -/
def sampleTree : FSTree :=
  FSTree.node "r" ["a.PSZ", "b.txt"] [FSTree.node "r/s" ["c.psx"] []]

/-- The spec's label-to-operation correspondence (spec section 4.2): which
host-API calls belong to which asset-kind label. -/
def correspondsTo (asset_type : String) (c : HostCall) : Bool :=
  match c with
  | HostCall.removeKeypoints => asset_type = "Key Points"
  | HostCall.setTiePointsNone => asset_type = "Tie Points"
  | HostCall.removeDepthMaps => asset_type = "Depth Maps"
  | HostCall.removePointClouds => asset_type = "Point Clouds"
  | HostCall.removeModels => asset_type = "Models"
  | HostCall.removeTiledModels => asset_type = "Tiled Models"
  | HostCall.removeElevations => asset_type = "DEMs"
  | HostCall.removeOrthophotos _ => asset_type = "Orthophotos"
  | HostCall.removeOrthomosaics => asset_type = "Orthomosaics"
  | HostCall.setShapesNone => asset_type = "Shapes"

/-! Spec-side descriptions used to state the batch-shape claims. -/

/-- The chunk a successful `openDoc` yields (arbitrary when open failed;
only used under the hypothesis that it succeeded). -/
def openedChunk (env : BatchEnv) (fp : String) : Chunk :=
  match env.openDoc fp with
  | Except.ok c => c
  | Except.error _ => { label := "", tie_points := false, orthomosaics := [] }

/-- The log entries one project target contributes, in the spec's words: a
single I/O failure entry when opening fails; otherwise one entry per
selected asset kind, in selection order, followed by one extra I/O failure
entry when saving fails. -/
def projectLogSpec (env : BatchEnv) (assets : List String) (fp : String) :
    List LogEntry :=
  match env.openDoc fp with
  | Except.error e => [openFailEntry fp e]
  | Except.ok chunk =>
    assetRemovalLog (env.host fp) chunk fp assets ++
      (match env.saveDoc fp with
       | Except.ok _ => []
       | Except.error e => [openFailEntry fp e])

/-- The actions one project target contributes, in the spec's words: the
open attempt; then, if it succeeded, one dispatch per selected asset kind in
selection order followed by the save. -/
def projectTraceSpec (env : BatchEnv) (assets : List String) (fp : String) :
    List Action :=
  match env.openDoc fp with
  | Except.error _ => [Action.openDoc fp]
  | Except.ok _ =>
    Action.openDoc fp ::
      (assets.map (fun a => Action.dispatch fp a) ++ [Action.save fp])

/-! Formal statements of the claims that the code refutes, stated the way
the claims are written, so that they can be disproved at a concrete
input. -/

/-- Claim C1 as stated: absent project-open failures, a batch over the
selected files produces exactly N times M log entries. -/
def claimC1Prop : Prop :=
  ∀ (env : BatchEnv) (assets : List String) (fps : List String),
    (∀ fp ∈ fps, isOk (env.openDoc fp) = true) →
    (processProjects env assets fps).2.length = fps.length * assets.length

/-- Claim C2 as stated: every valid asset-kind label makes exactly one
host-API call per dispatcher invocation. -/
def claimC2Prop : Prop :=
  ∀ a ∈ validAssetTypes, ∀ (env : HostEnv) (chunk : Chunk),
    ((handle_assets env chunk a).2).length = 1

/-- Claim C6's clause about the current-open-project mode, as stated: a
confirmed current-project pass saves the project. -/
def claimC6Prop : Prop :=
  ∀ (env : HostEnv) (chunk : Chunk) (checked : String → Bool),
    ∃ p, Action.save p ∈ (remove_from_project env chunk checked true).1

end CleanUp

namespace CleanUp

/-! ### Helper lemmas -/

/-- The batch loop is the concatenation of the per-project bodies, project
by project, for both the action trace and the log. -/
theorem processProjects_eq (env : BatchEnv) (assets : List String)
    (fps : List String) :
    processProjects env assets fps =
      (fps.flatMap (fun fp => (processOneProject env assets fp).1),
       fps.flatMap (fun fp => (processOneProject env assets fp).2)) := by
  induction fps with
  | nil => rfl
  | cons fp rest ih => simp [processProjects, ih]

/-- The log of one per-project loop body matches its spec-side
description. -/
theorem processOneProject_log (env : BatchEnv) (assets : List String)
    (fp : String) :
    (processOneProject env assets fp).2 = projectLogSpec env assets fp := by
  unfold processOneProject projectLogSpec
  cases h : env.openDoc fp with
  | error e => rfl
  | ok chunk => cases hs : env.saveDoc fp <;> simp

/-- The action trace of one per-project loop body matches its spec-side
description. -/
theorem processOneProject_trace (env : BatchEnv) (assets : List String)
    (fp : String) :
    (processOneProject env assets fp).1 = projectTraceSpec env assets fp := by
  unfold processOneProject projectTraceSpec
  cases h : env.openDoc fp with
  | error e => rfl
  | ok chunk => cases hs : env.saveDoc fp <;> simp

/-- Filtering distributes over `flatMap`. -/
theorem filter_flatMap_eq {α β : Type} (l : List α) (f : α → List β)
    (p : β → Bool) :
    (l.flatMap f).filter p = l.flatMap (fun x => (f x).filter p) := by
  induction l with
  | nil => rfl
  | cons x xs ih => simp [List.flatMap_cons, List.filter_append, ih]

/-- The length of a `flatMap` whose blocks all have length `n`. -/
theorem length_flatMap_const {α β : Type} (l : List α) (f : α → List β)
    (n : Nat) (h : ∀ x ∈ l, (f x).length = n) :
    (l.flatMap f).length = l.length * n := by
  induction l with
  | nil => simp
  | cons x xs ih =>
    have hx := h x (List.mem_cons_self x xs)
    have ihx := ih (fun y hy => h y (List.mem_cons_of_mem x hy))
    simp [List.flatMap_cons, hx, ihx, Nat.succ_mul, Nat.add_comm]

/-- The dispatch actions of one per-project body: all of the selected
assets when the open succeeded, none otherwise. -/
theorem projectTraceSpec_dispatch (env : BatchEnv) (assets : List String)
    (fp : String) :
    (projectTraceSpec env assets fp).filter Action.isDispatch =
      if isOk (env.openDoc fp) then
        assets.map (fun a => Action.dispatch fp a)
      else [] := by
  unfold projectTraceSpec
  cases h : env.openDoc fp with
  | error e => simp [isOk, Action.isDispatch]
  | ok chunk =>
    simp only [isOk, if_true]
    simp [List.filter_append, List.filter_map, Function.comp_def,
      Action.isDispatch]

end CleanUp

namespace CleanUp

/-! ### Claim C3 -/

/-- The unknown-label branch: no recognised label, no call, `False`. -/
theorem handle_unknown (env : HostEnv) (chunk : Chunk) (a : String)
    (h : a ∉ validAssetTypes) : handle_assets env chunk a = (false, []) := by
  simp only [validAssetTypes, List.mem_cons, List.not_mem_nil, or_false,
    not_or] at h
  obtain ⟨h1, h2, h3, h4, h5, h6, h7, h8, h9, h10⟩ := h
  simp [handle_assets, h1, h2, h3, h4, h5, h6, h7, h8, h9, h10]

/-- Claim C3 (confirmed): for every asset-kind label outside the fixed
enumeration, `handle_assets` returns failure and performs no host-API
call. -/
theorem C3_unknown_label_fails (env : HostEnv) (chunk : Chunk) (a : String)
    (h : a ∉ validAssetTypes) : handle_assets env chunk a = (false, []) :=
  handle_unknown env chunk a h

/-- Witness for C3 at the concrete label "Bogus". -/
theorem C3_unknown_label_fails_witness :
    "Bogus" ∉ validAssetTypes ∧
      handle_assets envAllOk chunkA "Bogus" = (false, []) :=
  ⟨by decide, C3_unknown_label_fails envAllOk chunkA "Bogus" (by decide)⟩

/-! ### Claim C8 -/

/-- Claim C8 (confirmed): `get_selected_assets` returns exactly the asset
kinds whose checkboxes are checked, and the default selection on dialog
creation is exactly Orthophotos, Orthomosaics, DEMs and Point Clouds. -/
theorem C8_selected_assets :
    (∀ (checked : String → Bool) (a : String),
      a ∈ get_selected_assets checked ↔ a ∈ checkboxLabels ∧ checked a = true) ∧
    (∀ a : String, a ∈ get_selected_assets defaultChecked ↔
      a ∈ ["Orthophotos", "Orthomosaics", "DEMs", "Point Clouds"]) := by
  constructor
  · intro checked a
    simp [get_selected_assets, List.mem_filter]
  · intro a
    have h : get_selected_assets defaultChecked =
        ["Point Clouds", "DEMs", "Orthophotos", "Orthomosaics"] := by decide
    rw [h]
    simp only [List.mem_cons, List.not_mem_nil, or_false]
    tauto

/-! ### Claim C9 -/

/-- Claim C9 (confirmed): with no tie-point set on the chunk, dispatching
"Key Points" makes no host-API call, returns success, and the per-pair log
entry is the success entry. -/
theorem C9_keypoints_without_tiepoints (env : HostEnv) (chunk : Chunk)
    (target : String) (h : chunk.tie_points = false) :
    handle_assets env chunk "Key Points" = (true, []) ∧
      assetRemovalLog env chunk target ["Key Points"] =
        [successEntry "Key Points" target] := by
  have h1 : handle_assets env chunk "Key Points" = (true, []) := by
    simp [handle_assets, h, finishTry]
  exact ⟨h1, by simp [assetRemovalLog, h1]⟩

/-- Witness for C9 at a concrete chunk with no tie-point set. -/
theorem C9_keypoints_without_tiepoints_witness :
    handle_assets envAllOk chunkNoTP "Key Points" = (true, []) ∧
      assetRemovalLog envAllOk chunkNoTP "Chunk 1" ["Key Points"] =
        [successEntry "Key Points" "Chunk 1"] :=
  C9_keypoints_without_tiepoints envAllOk chunkNoTP "Chunk 1" rfl

/-! ### Claim C5 -/

/-- A trace that is empty or a lone confirmation contains no dispatch and
no save. -/
theorem confirm_only_no_effect (p : List Action × List LogEntry)
    (h : p.1 = [] ∨ p.1 = [Action.confirm]) :
    p.1.filter Action.isDispatch = [] ∧ p.1.filter Action.isSave = [] := by
  rcases h with h | h <;> rw [h] <;> exact ⟨rfl, rfl⟩

/-- A declined explicit-selection flow performs at most the confirmation. -/
theorem declined_trace_select (envB : BatchEnv) (checked : String → Bool)
    (fps : List String) :
    (select_project envB checked fps false).1 = [] ∨
      (select_project envB checked fps false).1 = [Action.confirm] := by
  by_cases h : (get_selected_assets checked).isEmpty
  · left; simp [select_project, h]
  · right; simp [select_project, h]

/-- A declined directory-scan commit performs at most the confirmation. -/
theorem declined_trace_process (envB : BatchEnv) (checked : String → Bool)
    (fps : List String) (boxes : List Bool) :
    (process_selected_projects envB checked fps boxes false).1 = [] ∨
      (process_selected_projects envB checked fps boxes false).1 =
        [Action.confirm] := by
  by_cases h1 : (selectByCheckbox fps boxes).isEmpty
  · left; simp [process_selected_projects, h1]
  · by_cases h2 : (get_selected_assets checked).isEmpty
    · left; simp [process_selected_projects, h1, h2]
    · right; simp [process_selected_projects, h1, h2]

/-- A declined directory-scan flow performs at most the confirmation. -/
theorem declined_trace_subfolders (envB : BatchEnv) (checked : String → Bool)
    (tree : FSTree) (boxes : List Bool) :
    (remove_from_subfolders envB checked tree boxes false).1 = [] ∨
      (remove_from_subfolders envB checked tree boxes false).1 =
        [Action.confirm] := by
  by_cases h0 : (collectProjectFiles tree).isEmpty
  · left; simp [remove_from_subfolders, h0]
  · have h := declined_trace_process envB checked (collectProjectFiles tree)
      boxes
    simpa [remove_from_subfolders, h0] using h

/-- Claim C5 (confirmed): in every mode, answering No to the confirmation
dialog leaves the batch with zero dispatcher invocations and zero project
saves. -/
theorem C5_decline_aborts (envH : HostEnv) (chunk : Chunk)
    (envB : BatchEnv) (checked : String → Bool) (fps : List String)
    (boxes : List Bool) (tree : FSTree) :
    ((remove_from_project envH chunk checked false).1.filter Action.isDispatch
        = [] ∧
     (remove_from_project envH chunk checked false).1.filter Action.isSave
        = []) ∧
    ((select_project envB checked fps false).1.filter Action.isDispatch
        = [] ∧
     (select_project envB checked fps false).1.filter Action.isSave = []) ∧
    ((process_selected_projects envB checked fps boxes false).1.filter
        Action.isDispatch = [] ∧
     (process_selected_projects envB checked fps boxes false).1.filter
        Action.isSave = []) ∧
    ((remove_from_subfolders envB checked tree boxes false).1.filter
        Action.isDispatch = [] ∧
     (remove_from_subfolders envB checked tree boxes false).1.filter
        Action.isSave = []) := by
  have h1 := declined_trace_select envB checked fps
  have h2 := declined_trace_process envB checked fps boxes
  have h3 := declined_trace_subfolders envB checked tree boxes
  exact ⟨confirm_only_no_effect _ (Or.inr rfl), confirm_only_no_effect _ h1,
    confirm_only_no_effect _ h2, confirm_only_no_effect _ h3⟩

/-! ### Claim C10 -/

/-- Claim C10 (confirmed): with an empty asset selection, the
explicit-selection and directory-scan flows do nothing at all — no
confirmation dialog, no open, no dispatch, no save, no log — whatever the
user would have answered; the current-project flow still shows the
confirmation dialog. -/
theorem C10_empty_selection (envB : BatchEnv) (envH : HostEnv)
    (chunk : Chunk) (checked : String → Bool) (fps : List String)
    (boxes : List Bool) (answer : Bool)
    (h : get_selected_assets checked = []) :
    select_project envB checked fps answer = ([], []) ∧
      process_selected_projects envB checked fps boxes answer = ([], []) ∧
      Action.confirm ∈ (remove_from_project envH chunk checked answer).1 := by
  refine ⟨?_, ?_, ?_⟩
  · simp [select_project, h]
  · by_cases h1 : (selectByCheckbox fps boxes).isEmpty
    · simp [process_selected_projects, h1]
    · simp [process_selected_projects, h1, h]
  · cases answer <;> simp [remove_from_project]

/-! ### Claim C1 -/

/-- `flatMap` respects pointwise equality on the list's members. -/
theorem flatMap_congr_mem {α β : Type} (l : List α) (f g : α → List β)
    (h : ∀ x ∈ l, f x = g x) : l.flatMap f = l.flatMap g := by
  induction l with
  | nil => rfl
  | cons x xs ih =>
    simp [List.flatMap_cons, h x (List.mem_cons_self x xs),
      ih (fun y hy => h y (List.mem_cons_of_mem x hy))]

/-- `projectTraceSpec`, written as an `if` on the open outcome. -/
theorem projectTraceSpec_eq_if (env : BatchEnv) (assets : List String)
    (fp : String) :
    projectTraceSpec env assets fp =
      if isOk (env.openDoc fp) then
        Action.openDoc fp ::
          (assets.map (fun a => Action.dispatch fp a) ++ [Action.save fp])
      else [Action.openDoc fp] := by
  unfold projectTraceSpec
  cases h : env.openDoc fp <;> simp [isOk]

/-- Claim C1 is refuted by the code: when a project opens but fails to
save, its `M` per-asset entries are followed by one extra failure entry, so
a batch with no open failure can log more than N times M entries. -/
theorem C1_counterexample : ¬ claimC1Prop := by
  intro h
  have h2 := h batchSaveFails ["Shapes"] ["p"] (by intro fp _; rfl)
  have h3 : (processProjects batchSaveFails ["Shapes"] ["p"]).2.length = 2 :=
    rfl
  rw [h3] at h2
  simp at h2

/-- Claim C1 as amended (per-asset entries plus the two I/O failure rules):
with every open and save succeeding, a batch over N projects and M selected
asset kinds makes exactly N times M dispatch attempts and N times M log
entries, the log being the projects' per-asset entry blocks in project
order, each block in asset-selection order; and in general (last conjunct)
each project contributes, in project-major order, a single failure entry
when its open fails — short-circuiting its M attempts — and its M entries
plus one extra failure entry when its save fails. -/
theorem C1_batch_shape (env : BatchEnv) (assets fps : List String)
    (hOpen : ∀ fp ∈ fps, isOk (env.openDoc fp) = true)
    (hSave : ∀ fp ∈ fps, isOk (env.saveDoc fp) = true) :
    ((processProjects env assets fps).1.filter Action.isDispatch).length
        = fps.length * assets.length ∧
    (processProjects env assets fps).2.length
        = fps.length * assets.length ∧
    (processProjects env assets fps).2 =
      fps.flatMap (fun fp =>
        assetRemovalLog (env.host fp) (openedChunk env fp) fp assets) ∧
    (∀ (env2 : BatchEnv) (fps2 : List String),
      (processProjects env2 assets fps2).2 =
        fps2.flatMap (projectLogSpec env2 assets) ∧
      (processProjects env2 assets fps2).1.filter Action.isDispatch =
        fps2.flatMap (fun fp =>
          if isOk (env2.openDoc fp) then
            assets.map (fun a => Action.dispatch fp a)
          else [])) := by
  have hlog : ∀ (env2 : BatchEnv) (fps2 : List String),
      (processProjects env2 assets fps2).2 =
        fps2.flatMap (projectLogSpec env2 assets) := by
    intro env2 fps2
    simp only [processProjects_eq, processOneProject_log]
  have hdisp : ∀ (env2 : BatchEnv) (fps2 : List String),
      (processProjects env2 assets fps2).1.filter Action.isDispatch =
        fps2.flatMap (fun fp =>
          if isOk (env2.openDoc fp) then
            assets.map (fun a => Action.dispatch fp a)
          else []) := by
    intro env2 fps2
    simp only [processProjects_eq, filter_flatMap_eq,
      processOneProject_trace, projectTraceSpec_dispatch]
  have hlog3 : (processProjects env assets fps).2 =
      fps.flatMap (fun fp =>
        assetRemovalLog (env.host fp) (openedChunk env fp) fp assets) := by
    rw [hlog env fps]
    apply flatMap_congr_mem
    intro fp hfp
    have ho := hOpen fp hfp
    have hs := hSave fp hfp
    unfold projectLogSpec openedChunk
    cases h : env.openDoc fp with
    | error e => rw [h] at ho; simp [isOk] at ho
    | ok chunk =>
      cases h2 : env.saveDoc fp with
      | error e => rw [h2] at hs; simp [isOk] at hs
      | ok u => simp
  refine ⟨?_, ?_, hlog3, fun env2 fps2 => ⟨hlog env2 fps2, hdisp env2 fps2⟩⟩
  · rw [hdisp env fps]
    refine length_flatMap_const fps _ assets.length ?_
    intro fp hfp
    simp [hOpen fp hfp]
  · rw [hlog3]
    refine length_flatMap_const fps _ assets.length ?_
    intro fp hfp
    simp [assetRemovalLog]

/-- Witness for C1's amended statement on a 2-project, 1-asset batch with
every open and save succeeding. -/
theorem C1_batch_shape_witness :
    ((processProjects batchAllOk ["Shapes"] ["p1", "p2"]).1.filter
        Action.isDispatch).length
      = (["p1", "p2"] : List String).length *
          (["Shapes"] : List String).length ∧
    (processProjects batchAllOk ["Shapes"] ["p1", "p2"]).2.length
      = (["p1", "p2"] : List String).length *
          (["Shapes"] : List String).length := by
  have h := C1_batch_shape batchAllOk ["Shapes"] ["p1", "p2"]
    (by intro fp _; rfl) (by intro fp _; rfl)
  exact ⟨h.1, h.2.1⟩

/-! ### Claim C6 -/

/-- Claim C6 is refuted by the code: the current-open-project mode never
calls `doc.save()`, so a confirmed current-project pass contains no save
action. -/
theorem C6_counterexample : ¬ claimC6Prop := by
  intro h
  obtain ⟨p, hp⟩ := h envAllOk chunkA noneChecked
  simp [remove_from_project, get_selected_assets, checkboxLabels,
    noneChecked] at hp

/-- Claim C6 as amended: in the file-based flows every project target whose
open succeeds is processed as open, the dispatches of all selected asset
kinds in order, then its save, before the next target's open (a failed open
contributes only the open attempt); the current-open-project mode performs
no save at all. -/
theorem C6_lifecycle (env : BatchEnv) (assets fps : List String)
    (envH : HostEnv) (chunk : Chunk) (checked : String → Bool)
    (answer : Bool) :
    (processProjects env assets fps).1 =
      fps.flatMap (fun fp =>
        if isOk (env.openDoc fp) then
          Action.openDoc fp ::
            (assets.map (fun a => Action.dispatch fp a) ++ [Action.save fp])
        else [Action.openDoc fp]) ∧
    (remove_from_project envH chunk checked answer).1.filter Action.isSave
      = [] := by
  constructor
  · simp only [processProjects_eq, processOneProject_trace,
      projectTraceSpec_eq_if]
  · cases answer <;>
      simp [remove_from_project, List.filter_append, List.filter_map,
        Function.comp_def, Action.isSave]

/-! ### Claim C2 -/

/-- `finishTry` keeps the list of calls made inside the `try` block. -/
theorem finishTry_snd (r : Option String × List HostCall) :
    (finishTry r).2 = r.2 := by
  cases r with
  | mk o cs => cases o <;> rfl

/-- One `tryCall` makes exactly its one call, raised or not. -/
theorem tryCall_snd (env : HostEnv) (c : HostCall) :
    (tryCall env c).2 = [c] := by
  unfold tryCall
  cases env c <;> rfl

/-- Every call the Orthophotos loop makes is an orthophoto removal. -/
theorem removeOrthophotosAll_calls (env : HostEnv) (os : List String) :
    ∀ c ∈ (removeOrthophotosAll env os).2,
      ∃ o, c = HostCall.removeOrthophotos o := by
  induction os with
  | nil => intro c hc; simp [removeOrthophotosAll] at hc
  | cons o rest ih =>
    intro c hc
    unfold removeOrthophotosAll at hc
    cases he : env (HostCall.removeOrthophotos o) with
    | ok u =>
      rw [he] at hc
      simp only [List.mem_cons] at hc
      rcases hc with rfl | hc
      · exact ⟨o, rfl⟩
      · exact ih c hc
    | error e =>
      rw [he] at hc
      simp only [List.mem_singleton] at hc
      exact ⟨o, hc⟩

/-- When no host call raises, the Orthophotos loop visits every orthomosaic
exactly once, in order. -/
theorem removeOrthophotosAll_allOk (env : HostEnv)
    (hok : ∀ c, isOk (env c) = true) (os : List String) :
    removeOrthophotosAll env os =
      (none, os.map HostCall.removeOrthophotos) := by
  induction os with
  | nil => rfl
  | cons o rest ih =>
    have h := hok (HostCall.removeOrthophotos o)
    unfold removeOrthophotosAll
    cases he : env (HostCall.removeOrthophotos o) with
    | ok u => simp [ih]
    | error e => rw [he] at h; simp [isOk] at h

/-- Claim C2 is refuted by the code: the "Orthophotos" branch makes one
host-API call per orthomosaic, so a chunk with two orthomosaics receives
two calls from a single dispatcher invocation. -/
theorem C2_counterexample : ¬ claimC2Prop := by
  intro h
  have h2 := h "Orthophotos" (by decide) envAllOk chunkA
  have h3 : ((handle_assets envAllOk chunkA "Orthophotos").2).length = 2 :=
    rfl
  rw [h3] at h2
  simp at h2

/-- Claim C2 as amended: a single dispatcher invocation on a valid label
makes only calls of the label's single corresponding host operation —
exactly one call for every label except "Key Points" (one call when the
chunk has a tie-point set, none otherwise) and "Orthophotos" (one call per
orthomosaic of the chunk, shown here when no call raises). -/
theorem C2_dispatch_calls (env : HostEnv) (chunk : Chunk) :
    (∀ a ∈ validAssetTypes, ∀ c ∈ (handle_assets env chunk a).2,
      correspondsTo a c = true) ∧
    (∀ a ∈ validAssetTypes, a ≠ "Key Points" → a ≠ "Orthophotos" →
      ((handle_assets env chunk a).2).length = 1) ∧
    ((handle_assets env chunk "Key Points").2.length
      = if chunk.tie_points then 1 else 0) ∧
    ((∀ c, isOk (env c) = true) →
      (handle_assets env chunk "Orthophotos").2 =
        chunk.orthomosaics.map HostCall.removeOrthophotos) := by
  refine ⟨?_, ?_, ?_, ?_⟩
  · intro a ha c hc
    fin_cases ha
    · cases htp : chunk.tie_points with
      | false =>
        simp [handle_assets, htp, finishTry_snd] at hc
      | true =>
        simp [handle_assets, htp, finishTry_snd, tryCall_snd] at hc
        subst hc; rfl
    all_goals try
      (simp [handle_assets, finishTry_snd, tryCall_snd] at hc; subst hc; rfl)
    · simp [handle_assets, finishTry_snd] at hc
      obtain ⟨o, rfl⟩ :=
        removeOrthophotosAll_calls env chunk.orthomosaics c hc
      rfl
  · intro a ha hk ho
    fin_cases ha
    · exact absurd rfl hk
    all_goals try
      (simp [handle_assets, finishTry_snd, tryCall_snd])
    · exact absurd rfl ho
  · cases htp : chunk.tie_points with
    | false => simp [handle_assets, htp, finishTry_snd]
    | true => simp [handle_assets, htp, finishTry_snd, tryCall_snd]
  · intro hok
    simp [handle_assets, finishTry_snd,
      removeOrthophotosAll_allOk env hok chunk.orthomosaics]

/-- Witness for C2's amended statement: on a two-orthomosaic chunk with
every host call succeeding, "Models" makes its one call and "Orthophotos"
one call per orthomosaic. -/
theorem C2_dispatch_calls_witness :
    ("Models" ∈ validAssetTypes ∧
      ((handle_assets envAllOk chunkA "Models").2).length = 1) ∧
    (handle_assets envAllOk chunkA "Orthophotos").2 =
      chunkA.orthomosaics.map HostCall.removeOrthophotos := by
  have h := C2_dispatch_calls envAllOk chunkA
  exact ⟨⟨by decide,
    h.2.1 "Models" (by decide) (by decide) (by decide)⟩,
    h.2.2.2 (fun c => rfl)⟩

/-! ### Claim C4 -/

/-- Leaving the `try` block with a recorded exception yields `False`. -/
theorem finishTry_fst_some (r : Option String × List HostCall)
    (h : ∃ e, r.1 = some e) : (finishTry r).1 = false := by
  obtain ⟨e, he⟩ := h
  cases r with
  | mk o cs =>
    simp only at he
    subst he
    rfl

/-- If a call the Orthophotos loop made raised, the loop ends with that
exception recorded. -/
theorem removeOrthophotosAll_error (env : HostEnv) (os : List String)
    (h : ∃ c ∈ (removeOrthophotosAll env os).2, ∃ e, env c = Except.error e) :
    ∃ e, (removeOrthophotosAll env os).1 = some e := by
  induction os with
  | nil => simp [removeOrthophotosAll] at h
  | cons o rest ih =>
    obtain ⟨c, hc, e, he⟩ := h
    unfold removeOrthophotosAll at hc ⊢
    cases hoe : env (HostCall.removeOrthophotos o) with
    | error e2 => exact ⟨e2, by simp [hoe]⟩
    | ok u =>
      rw [hoe] at hc
      simp only [List.mem_cons] at hc
      rcases hc with rfl | hc
      · rw [hoe] at he
        exact absurd he (by simp)
      · obtain ⟨e3, h3⟩ := ih ⟨c, hc, e, he⟩
        exact ⟨e3, by simp [hoe, h3]⟩

/-- Claim C4 (confirmed): an exception raised by a host call during removal
is converted into a `False` result inside the dispatcher (in this embedding
the dispatcher is a total function into `Bool`, so nothing propagates), and
a failed removal aborts nothing: in a batch, every (successfully opened
project, selected asset kind) pair is dispatched whatever the host calls
raise. -/
theorem C4_exceptions_contained :
    (∀ (env : HostEnv) (chunk : Chunk) (a : String),
      (∃ c ∈ (handle_assets env chunk a).2, ∃ e, env c = Except.error e) →
      (handle_assets env chunk a).1 = false) ∧
    (∀ (env : BatchEnv) (assets fps : List String) (fp a : String),
      fp ∈ fps → isOk (env.openDoc fp) = true → a ∈ assets →
      Action.dispatch fp a ∈ (processProjects env assets fps).1) := by
  constructor
  · intro env chunk a h
    by_cases hv : a ∈ validAssetTypes
    · fin_cases hv
      · cases htp : chunk.tie_points with
        | false => simp [handle_assets, htp, finishTry_snd] at h
        | true =>
          simp only [handle_assets, htp, if_true] at h ⊢
          simp only [finishTry_snd, tryCall_snd, List.mem_singleton] at h
          obtain ⟨c, rfl, e, he⟩ := h
          simp [finishTry, tryCall, he]
      all_goals try
        (simp only [handle_assets] at h ⊢;
          simp only [finishTry_snd, tryCall_snd, List.mem_singleton,
            String.reduceEq, if_false, if_true, reduceIte] at h ⊢;
          obtain ⟨c, rfl, e, he⟩ := h;
          simp [finishTry, tryCall, he])
      · simp only [handle_assets] at h ⊢
        simp only [finishTry_snd, String.reduceEq, if_false, if_true,
          reduceIte] at h ⊢
        exact finishTry_fst_some _
          (removeOrthophotosAll_error env chunk.orthomosaics h)
    · rw [handle_unknown env chunk a hv] at h
      simp at h
  · intro env assets fps fp a hfp hopen ha
    simp only [processProjects_eq, List.mem_flatMap]
    refine ⟨fp, hfp, ?_⟩
    simp only [processOneProject_trace, projectTraceSpec_eq_if, hopen,
      if_true, List.mem_cons, List.mem_append, List.mem_map]
    exact Or.inr (Or.inl ⟨a, ha, rfl⟩)

/-- Witness for C4: with every host call raising, "Models" yields a failure
result; in a batch whose every host call raises, the second project's
dispatch still happens. -/
theorem C4_exceptions_contained_witness :
    (handle_assets envAllFail chunkA "Models").1 = false ∧
      Action.dispatch "p2" "Shapes" ∈
        (processProjects batchHostFails ["Shapes"] ["p1", "p2"]).1 := by
  have h := C4_exceptions_contained
  exact ⟨h.1 envAllFail chunkA "Models"
      ⟨HostCall.removeModels, by decide, "boom", rfl⟩,
    h.2 batchHostFails ["Shapes"] ["p1", "p2"] "p2" "Shapes" (by decide)
      rfl (by decide)⟩

/-! ### Claim C7 -/

/-- The walk enumerates exactly the (directory, file) pairs of the tree:
mutual characterisation for trees and for sibling lists. -/
theorem mem_walk_all :
    (∀ (t : FSTree) (root f : String),
      ((root, f) ∈ walkEntries t ↔ InTree t root f)) ∧
    (∀ (ts : List FSTree) (root f : String),
      ((root, f) ∈ walkEntriesList ts ↔ ∃ u ∈ ts, InTree u root f)) := by
  refine walkEntries.mutual_induct
    (fun t => ∀ root f, ((root, f) ∈ walkEntries t ↔ InTree t root f))
    (fun ts => ∀ root f,
      ((root, f) ∈ walkEntriesList ts ↔ ∃ u ∈ ts, InTree u root f))
    ?_ ?_ ?_
  · intro r files subdirs ih root f
    simp only [walkEntries, List.mem_append, List.mem_map]
    constructor
    · intro h
      rcases h with ⟨f0, hf0, heq⟩ | h2
      · injection heq with h1 h2
        subst h1
        subst h2
        exact InTree.here r files subdirs f0 hf0
      · obtain ⟨u, hu, hin⟩ := (ih root f).mp h2
        exact InTree.there r files subdirs u root f hu hin
    · intro h
      cases h with
      | here root files subdirs f hf => exact Or.inl ⟨f, hf, rfl⟩
      | there r fs subdirs u root f hu hin =>
        exact Or.inr ((ih root f).mpr ⟨u, hu, hin⟩)
  · intro root f
    simp [walkEntriesList]
  · intro t ts ih1 ih2 root f
    simp only [walkEntriesList, List.mem_append, List.mem_cons]
    constructor
    · rintro (h | h)
      · exact ⟨t, Or.inl rfl, (ih1 root f).mp h⟩
      · obtain ⟨u, hu, hin⟩ := (ih2 root f).mp h
        exact ⟨u, Or.inr hu, hin⟩
    · rintro ⟨u, hu | hu, hin⟩
      · exact Or.inl ((ih1 root f).mpr (hu ▸ hin))
      · exact Or.inr ((ih2 root f).mpr ⟨u, hu, hin⟩)

/-- With every table checkbox left in its default checked state, the
selection is the whole discovered list. -/
theorem selectByCheckbox_all_true (fps : List String) :
    selectByCheckbox fps (List.replicate fps.length true) = fps := by
  induction fps with
  | nil => rfl
  | cons p ps ih =>
    simp only [selectByCheckbox] at ih
    simp only [List.length_cons, List.replicate_succ, selectByCheckbox,
      List.zip_cons_cons, List.filter_cons]
    simp [ih]

/-- The selection is exactly the rows whose checkbox is checked, in row
order. -/
theorem selectByCheckbox_indices (fps : List String) (bs : List Bool)
    (h : bs.length = fps.length) :
    selectByCheckbox fps bs =
      ((List.range fps.length).filter (fun i => bs.getD i false)).map
        (fun i => fps.getD i "") := by
  induction fps generalizing bs with
  | nil => simp [selectByCheckbox]
  | cons p ps ih =>
    cases bs with
    | nil => exact absurd h (by simp)
    | cons b bs' =>
      have h' : bs'.length = ps.length := by simpa using h
      simp only [selectByCheckbox] at ih
      simp only [selectByCheckbox, List.zip_cons_cons, List.filter_cons,
        List.length_cons, List.range_succ_eq_map, List.getD_cons_zero,
        List.filter_map, List.map_map, Function.comp_def,
        List.getD_cons_succ, List.getElem?_cons_succ]
      cases b with
      | false => simp [Function.comp_def, ih bs' h']
      | true => simp [Function.comp_def, ih bs' h']

/-- Claim C7 (confirmed): the directory scan discovers exactly the files
under the chosen directory, recursively, whose (lowercased) name ends in
one of the project-file suffixes; the selection table defaults every
discovered file to checked, which selects the whole list; and an arbitrary
checkbox state selects exactly the still-checked rows, in row order, so
deselecting a subset excludes exactly those files from the batch. -/
theorem C7_directory_scan (t : FSTree) (p : String) (fps : List String)
    (bs : List Bool) (h : bs.length = fps.length) :
    (p ∈ collectProjectFiles t ↔
      ∃ root f, InTree t root f ∧ isProjectFile f = true ∧
        p = joinPath root f) ∧
    selectByCheckbox fps (List.replicate fps.length true) = fps ∧
    selectByCheckbox fps bs =
      ((List.range fps.length).filter (fun i => bs.getD i false)).map
        (fun i => fps.getD i "") := by
  refine ⟨?_, selectByCheckbox_all_true fps, selectByCheckbox_indices fps bs h⟩
  unfold collectProjectFiles
  simp only [List.mem_map, List.mem_filter]
  constructor
  · rintro ⟨⟨root, f⟩, ⟨hmem, hproj⟩, rfl⟩
    exact ⟨root, f, (mem_walk_all.1 t root f).mp hmem, hproj, rfl⟩
  · rintro ⟨root, f, hin, hproj, rfl⟩
    exact ⟨(root, f), ⟨(mem_walk_all.1 t root f).mpr hin, hproj⟩, rfl⟩

/-- Witness for C7 on a concrete tree (one matching file in the root, one
non-matching file, one matching file in a subdirectory) and a concrete
two-row table with the second row deselected. -/
theorem C7_directory_scan_witness :
    ([true, false] : List Bool).length = (["x", "y"] : List String).length ∧
    (("r/a.PSZ" ∈ collectProjectFiles sampleTree ↔
      ∃ root f, InTree sampleTree root f ∧ isProjectFile f = true ∧
        "r/a.PSZ" = joinPath root f) ∧
    selectByCheckbox ["x", "y"]
        (List.replicate (["x", "y"] : List String).length true) = ["x", "y"] ∧
    selectByCheckbox ["x", "y"] [true, false] =
      ((List.range (["x", "y"] : List String).length).filter
          (fun i => ([true, false] : List Bool).getD i false)).map
        (fun i => (["x", "y"] : List String).getD i "")) :=
  ⟨by decide,
   C7_directory_scan sampleTree "r/a.PSZ" ["x", "y"] [true, false]
     (by decide)⟩

/-- Witness for C10 with nothing checked. -/
theorem C10_empty_selection_witness :
    get_selected_assets noneChecked = [] ∧
      (select_project batchAllOk noneChecked ["p1"] true = ([], []) ∧
        process_selected_projects batchAllOk noneChecked ["p1"] [true] true
          = ([], []) ∧
        Action.confirm ∈
          (remove_from_project envAllOk chunkA noneChecked true).1) :=
  ⟨rfl, C10_empty_selection batchAllOk envAllOk chunkA noneChecked ["p1"]
    [true] true rfl⟩

end CleanUp
